import Mathlib

/-!
Verification of the Type Resolution & Routing Engine of TS-Mock-Proxy.

The development shallowly embeds the engine: the filesystem and the external
mock-data generator are explicit environments, the interface-name extraction is
the regex scan of src/utils/typeMapping.ts implemented over character lists,
the catalog build, URL resolution, request handler, proxy gate, status override
middleware, watch coordinator and startup validation are translated from their
sources, and the SchemaCache class (whose source file src/core/cache.ts is not
among the provided sources) is modelled from the specification and its tests.
-/

namespace TSMockProxy

/-- Character class of the regex escape w (ASCII letters, digits and the
underscore), the class of the interface-name capture group. -/
def isWordChar (c : Char) : Bool :=
  ('a' ≤ c && c ≤ 'z') || ('A' ≤ c && c ≤ 'Z') || ('0' ≤ c && c ≤ '9') || c == '_'

/-- Character class of the regex escape s (whitespace) as it occurs between
export, interface and the captured name. -/
def isSpaceChar (c : Char) : Bool :=
  c == ' ' || c == '\t' || c == '\n' || c == '\r' || c == '\x0b' || c == '\x0c'

/-- Match a literal character sequence at the head of the input, returning the
rest of the input on success. -/
def dropLit : List Char → List Char → Option (List Char)
  | [], cs => some cs
  | _ :: _, [] => none
  | l :: ls, c :: cs => if c == l then dropLit ls cs else none

/-- Match one or more whitespace characters (the regex s plus), returning the
rest of the input on success. -/
def dropSpaces1 : List Char → Option (List Char)
  | [] => none
  | c :: cs => if isSpaceChar c then some (cs.dropWhile isSpaceChar) else none

/-- Attempt, at the current position, the regex of extractInterfaceNames
(export, one or more spaces, interface, one or more spaces, then a captured
word).  On success return the captured interface name and the input after the
match, the position from which the JS global regex resumes. -/
def matchExportInterface (cs : List Char) : Option (String × List Char) :=
  match dropLit "export".data cs with
  | none => none
  | some r1 =>
    match dropSpaces1 r1 with
    | none => none
    | some r2 =>
      match dropLit "interface".data r2 with
      | none => none
      | some r3 =>
        match dropSpaces1 r3 with
        | none => none
        | some r4 =>
          if (r4.takeWhile isWordChar).isEmpty then none
          else some (String.mk (r4.takeWhile isWordChar), r4.dropWhile isWordChar)

/-- One global scan of the regex over the content: at each position try a match;
on success emit the captured name and resume after the match, otherwise advance
one character.  The fuel argument, instantiated with the content length, only
bounds the recursion: each step consumes at least one character, so the fuel is
never exhausted before the input is. -/
def scanInterfaceDecls : Nat → List Char → List String
  | 0, _ => []
  | _ + 1, [] => []
  | fuel + 1, c :: rest =>
    match matchExportInterface (c :: rest) with
    | some (name, after) => name :: scanInterfaceDecls fuel after
    | none => scanInterfaceDecls fuel rest

/-- Embeds extractInterfaceNames of src/utils/typeMapping.ts applied to a file
content: collect the names captured by the global regex scan.  The file read
itself (fs.readFileSync) is supplied by the FileSystem environment. -/
def extractInterfaceNames (content : String) : List String :=
  scanInterfaceDecls content.data.length content.data

/-- The filesystem collaborator: findTypeScriptFiles dir is the list of .ts
files produced by the recursive directory walk of src/utils/typeMapping.ts for
the root dir (a non-existent root yields the empty list), and fileContent p is
the text of the file p. -/
structure FileSystem where
  findTypeScriptFiles : String → List String
  fileContent : String → String

/-- The insertion step of buildTypeMap: if the type already exists, keep the
first one found, otherwise add the new (name, file) entry to the map. -/
def insertIfNew (m : List (String × String)) (name file : String) :
    List (String × String) :=
  if (m.lookup name).isSome then m else m ++ [(name, file)]

/-- Embeds buildTypeMap of src/utils/typeMapping.ts: scan every directory in
the given order, extract the exported interface names of every file, and keep
for each name the first file in which it was found. -/
def buildTypeMap (fsys : FileSystem) (directories : List String) :
    List (String × String) :=
  directories.foldl
    (fun m dir =>
      (fsys.findTypeScriptFiles dir).foldl
        (fun m file =>
          (extractInterfaceNames (fsys.fileContent file)).foldl
            (fun m interfaceName => insertIfNew m interfaceName file) m)
        m)
    []

/-- All (interface name, file) pairs of a scan, in scan order: directories in
their given order, files in directory-walk order, names in file order. -/
def scanPairs (fsys : FileSystem) (directories : List String) :
    List (String × String) :=
  directories.flatMap fun dir =>
    (fsys.findTypeScriptFiles dir).flatMap fun file =>
      (extractInterfaceNames (fsys.fileContent file)).map fun name => (name, file)

/-- Split a character list at every occurrence of the separator, the semantics
of the JS String.split with a one-character separator. -/
def splitChar (sep : Char) : List Char → List (List Char)
  | [] => [[]]
  | c :: cs =>
    if c == sep then [] :: splitChar sep cs
    else
      match splitChar sep cs with
      | [] => [[c]]
      | r :: rs => (c :: r) :: rs

/-- Embeds extractLastSegment of src/utils/pluralize.ts: split the URL on
slashes, drop the empty segments (the JS filter(Boolean)), and take the last
segment, or the empty string when none remains. -/
def extractLastSegment (url : String) : String :=
  let segments := ((splitChar '/' url.data).map String.mk).filter (fun s => s ≠ "")
  segments.getLast?.getD ""

/-- The character pass behind the first replace of toPascalCase (the regex that
erases runs of hyphens and underscores): a run of separators together with the
character that follows is replaced by that character upper-cased; every other
character is kept.  The flag records whether a separator run is pending. -/
def pascalChars : Bool → List Char → List Char
  | _, [] => []
  | pendingSep, c :: cs =>
    if c == '-' || c == '_' then pascalChars true cs
    else if pendingSep then c.toUpper :: pascalChars false cs
    else c :: pascalChars false cs

/-- Embeds toPascalCase of src/utils/pluralize.ts: erase separator runs while
upper-casing the character that follows each run, then upper-case the first
character of the result. -/
def toPascalCase (s : String) : String :=
  match pascalChars false s.data with
  | [] => ""
  | c :: cs => String.mk (c.toUpper :: cs)

/-- Modelled from the spec: the irregular-form table of the external pluralize
dependency (the library is not part of this repository), per the inflection
rules of the URL Resolver contract. -/
def irregularPlurals : List (String × String) :=
  [("people", "person"), ("children", "child"), ("men", "man"),
   ("women", "woman"), ("feet", "foot"), ("teeth", "tooth"),
   ("geese", "goose"), ("mice", "mouse")]

/-- Whether a word ends in the letter s. -/
def endsInS (w : String) : Bool :=
  match w.data.reverse with
  | 's' :: _ => true
  | _ => false

/-- Whether a word ends in a double s. -/
def endsInDoubleS (w : String) : Bool :=
  match w.data.reverse with
  | 's' :: 's' :: _ => true
  | _ => false

/-- Modelled from the spec: pluralize.isPlural — a word is plural when it is in
the irregular table or ends in a single (not double) final s. -/
def isPlural (w : String) : Bool :=
  (irregularPlurals.lookup w).isSome || (endsInS w && !endsInDoubleS w)

/-- Modelled from the spec: pluralize.singular — an irregular plural maps
through the table, a regular plural drops its final s, anything else is
returned unchanged. -/
def singular (w : String) : String :=
  match irregularPlurals.lookup w with
  | some s => s
  | none => if endsInS w && !endsInDoubleS w then String.mk w.data.dropLast else w

/-- The result of URL resolution: a canonical type name and the plural flag. -/
structure ResolvedType where
  typeName : String
  isArray : Bool
  deriving DecidableEq

/-- Embeds urlSegmentToTypeName of src/utils/pluralize.ts: detect plurality,
singularize only when plural, and PascalCase the result; the array flag is
exactly the plurality of the segment. -/
def urlSegmentToTypeName (urlSegment : String) : ResolvedType :=
  let plural := isPlural urlSegment
  let sing := if plural then singular urlSegment else urlSegment
  { typeName := toPascalCase sing, isArray := plural }

/-- Embeds parseUrlToType of src/utils/pluralize.ts: resolve the last non-empty
segment of the URL. -/
def parseUrlToType (url : String) : ResolvedType :=
  urlSegmentToTypeName (extractLastSegment url)

/-- RouteTypeMapping of src/types/config.ts: the ephemeral per-request mapping
from a URL to a type and its source file. -/
structure RouteTypeMapping where
  typeName : String
  isArray : Bool
  filePath : String
  deriving DecidableEq

/-- Embeds findTypeForUrl of src/utils/typeMapping.ts: resolve the URL, build
the type map over the given directories and look the name up; the truthiness
test if (not filePath) also rejects an empty file path string. -/
def findTypeForUrl (fsys : FileSystem) (url : String) (directories : List String) :
    Option RouteTypeMapping :=
  let r := parseUrlToType url
  let typeMap := buildTypeMap fsys directories
  match typeMap.lookup r.typeName with
  | none => none
  | some filePath =>
    if filePath = "" then none
    else some { typeName := r.typeName, isArray := r.isArray, filePath := filePath }

/-- Serialized payload produced by the external mock-data generator
collaborator (core/parser.ts is an external collaborator of the engine);
equality of payloads models byte-identical JSON bodies. -/
abbrev MockData := String

/-- The external mock-data generator: generateMockFromInterface and
generateMockArray of core/parser.ts, abstracted as an environment taking the
source file path and the interface name. -/
structure MockGenerator where
  generateMockFromInterface : String → String → MockData
  generateMockArray : String → String → List MockData

/-- The fields of ServerConfig (src/types/config.ts) read by the routing
core. -/
structure ServerConfig where
  contractsDir : String
  externalDirs : List String
  targetUrl : Option String
  cache : Bool
  deriving DecidableEq

/-- The directory list built by the router and the proxy gate:
[config.contractsDir, ...(config.externalDirs or [])]. -/
def allDirs (config : ServerConfig) : List String :=
  config.contractsDir :: config.externalDirs

/-- Modelled from the spec: the CachedSchema record of the SchemaCache class
(its source file src/core/cache.ts is not among the provided sources); the
fields follow the cache tests and the CacheEntry data model of the spec. -/
structure CachedSchema where
  interfaceName : String
  filePath : String
  schema : MockData
  createdAt : Nat
  deriving DecidableEq

/-- Modelled from the spec: the SchemaCache state — the administratively
enabled flag and the entries, keyed by the pair (interfaceName, filePath). -/
structure SchemaCacheState where
  enabled : Bool
  entries : List CachedSchema
  deriving DecidableEq

/-- Whether a cache entry is stored under the key (name, file). -/
def cacheKeyMatches (name file : String) (e : CachedSchema) : Bool :=
  e.interfaceName == name && e.filePath == file

/-- Modelled from the spec: SchemaCache.get — a miss when the cache is
disabled, otherwise the entry stored under (name, file). -/
def cacheGet (c : SchemaCacheState) (name file : String) : Option CachedSchema :=
  if c.enabled then c.entries.find? (cacheKeyMatches name file) else none

/-- Modelled from the spec: SchemaCache.set — a no-op when the cache is
disabled, otherwise store the schema under (name, file), replacing any previous
entry of that key; now is the creation timestamp. -/
def cacheSet (c : SchemaCacheState) (name file : String) (schema : MockData)
    (now : Nat) : SchemaCacheState :=
  if c.enabled then
    { c with entries :=
        c.entries.filter (fun e => !cacheKeyMatches name file e) ++
          [{ interfaceName := name, filePath := file, schema := schema,
             createdAt := now }] }
  else c

/-- Modelled from the spec: SchemaCache.invalidateFile — remove every entry
whose source file matches; a no-op when the cache is disabled. -/
def cacheInvalidateFile (c : SchemaCacheState) (file : String) : SchemaCacheState :=
  if c.enabled then
    { c with entries := c.entries.filter (fun e => !(e.filePath == file)) }
  else c

/-- The JSON bodies the serving layer can produce for one request. -/
inductive ResponseBody
  | typeNotFound (url : String)
  | forcedError (status : Nat)
  | payload (data : MockData)
  | arrayPayload (data : List MockData)
  | proxyError (message : String)
  deriving DecidableEq

/-- An HTTP response: the status code and the JSON body. -/
structure HttpResponse where
  status : Nat
  body : ResponseBody
  deriving DecidableEq

/-- The JS expression (forcedStatus or default): the forced status applies
exactly when it is present and truthy. -/
def statusOr (forced : Option Nat) (dflt : Nat) : Nat :=
  match forced with
  | some f => if f == 0 then dflt else f
  | none => dflt

/-- The mock-serving tail of dynamicRouteHandler (src/core/router.ts), reached
once the route is resolved and no forced error applies: consult the cache for
singular routes, otherwise generate the payload, store singular payloads when
caching is on, and answer with the forced status or 200. -/
def serveResolved (gen : MockGenerator) (config : ServerConfig)
    (st : SchemaCacheState) (now : Nat) (mapping : RouteTypeMapping)
    (forced : Option Nat) : HttpResponse × SchemaCacheState :=
  match (if config.cache && mapping.filePath != "" && !mapping.isArray then
      cacheGet st mapping.typeName mapping.filePath
    else none) with
  | some cached =>
    ({ status := statusOr forced 200, body := .payload cached.schema }, st)
  | none =>
    if mapping.isArray then
      ({ status := statusOr forced 200,
         body := .arrayPayload
           (gen.generateMockArray mapping.filePath mapping.typeName) }, st)
    else
      ({ status := statusOr forced 200,
         body := .payload
           (gen.generateMockFromInterface mapping.filePath mapping.typeName) },
       if config.cache && mapping.filePath != "" && !mapping.isArray then
         cacheSet st mapping.typeName mapping.filePath
           (gen.generateMockFromInterface mapping.filePath mapping.typeName) now
       else st)

/-- Embeds dynamicRouteHandler of src/core/router.ts for one request: resolve
the URL over all configured directories, answer 404 (or the forced status) when
no type matches, answer a forced error for a forced status of 400 or more, and
otherwise serve the mock; the pair is the response and the cache state after
the request.  The forced argument is res.locals.forcedStatus as left by
statusOverrideMiddleware. -/
def dynamicRouteHandler (gen : MockGenerator) (config : ServerConfig)
    (fsys : FileSystem) (st : SchemaCacheState) (now : Nat) (url : String)
    (forced : Option Nat) : HttpResponse × SchemaCacheState :=
  match findTypeForUrl fsys url (allDirs config) with
  | none => ({ status := statusOr forced 404, body := .typeNotFound url }, st)
  | some mapping =>
    match forced with
    | some f =>
      if 400 ≤ f then ({ status := f, body := .forcedError f }, st)
      else serveResolved gen config st now mapping (some f)
    | none => serveResolved gen config st now mapping none

/-- Decimal digit run to a natural number. -/
def digitsToNat (ds : List Char) : Nat :=
  ds.foldl (fun a c => a * 10 + (c.toNat - '0'.toNat)) 0

/-- Models the JS parseInt(str, 10) applied to the x-mock-status header: skip
leading whitespace, read an optional sign and the longest digit run, ignore
everything after it; NaN (none) when no digit is found. -/
def jsParseInt (s : String) : Option Int :=
  let cs := s.data.dropWhile isSpaceChar
  let signAndRest : Int × List Char :=
    match cs with
    | '-' :: r => (-1, r)
    | '+' :: r => (1, r)
    | _ => (1, cs)
  let digits := signAndRest.2.takeWhile Char.isDigit
  if digits.isEmpty then none
  else some (signAndRest.1 * (digitsToNat digits : Int))

/-- Embeds statusOverrideMiddleware of src/middlewares/statusOverride.ts: the
res.locals.forcedStatus resulting from a given x-mock-status header value
(none when the header is absent; an empty header value is falsy and skipped;
a parsed status is recorded only when it lies in the range 100 to 599). -/
def statusOverrideMiddleware (header : Option String) : Option Nat :=
  match header with
  | none => none
  | some h =>
    if h = "" then none
    else
      match jsParseInt h with
      | none => none
      | some s => if 100 ≤ s ∧ s < 600 then some s.toNat else none

/-- The decision of the mock/proxy gate for one request. -/
inductive GateDecision
  | serveMockRoute
  | forwardToUpstream
  deriving DecidableEq

/-- Embeds the middleware returned by createProxyFallback (src/core/proxy.ts)
together with its installation in createServer (src/server.ts): without a
configured targetUrl no proxy middleware is installed and every request falls
through to the dynamic mock route; with one, a request whose URL resolves to a
known type passes on to the mock route (next()), and any other request is
forwarded to the upstream. -/
def gateDecision (config : ServerConfig) (fsys : FileSystem) (url : String) :
    GateDecision :=
  match config.targetUrl with
  | none => .serveMockRoute
  | some _ =>
    match findTypeForUrl fsys url (allDirs config) with
    | some _ => .serveMockRoute
    | none => .forwardToUpstream

/-- Embeds the onError callback of createProxyFallback: the 502 reply is sent
only behind the guard (res instanceof Response).  The argument is the runtime
value of that guard. -/
def proxyOnErrorReply (resInstanceofResponse : Bool) (message : String) :
    Option HttpResponse :=
  if resInstanceofResponse then
    some { status := 502, body := .proxyError message }
  else none

/-- The runtime value of the guard (res instanceof Response) inside onError:
the express module exports Response as a TypeScript-only type with no runtime
constructor value, so the instanceof test can never succeed on an actual
server response object. -/
def expressResponseGuard : Bool := false

/-- The outcome of one forwarded request. -/
inductive ForwardOutcome
  | upstreamReply
  | failedAttempt (clientReply : Option HttpResponse)
  deriving DecidableEq

/-- Embeds one forwarded request through the http-proxy-middleware instance of
createProxyFallback: exactly one attempt; on success the upstream reply is
relayed, on failure onError runs once and the client receives at most the reply
it produces — there is no retry and no fallback to the mock route. -/
def forwardRequest (upstreamReachable : Bool) (message : String) : ForwardOutcome :=
  if upstreamReachable then .upstreamReply
  else .failedAttempt (proxyOnErrorReply expressResponseGuard message)

/-- WatchEvent (spec data model): the chokidar events handled by
startFileWatcher of src/utils/fileWatcher.ts. -/
inductive WatchEvent
  | added (path : String)
  | changed (path : String)
  | removed (path : String)
  | watchError (detail : String)
  deriving DecidableEq

/-- Embeds the effect on the cache of the event handlers registered by
startFileWatcher: the change and unlink handlers invalidate every entry of the
reported file; the add and error handlers leave the cache untouched.  The
onReload callback supplied by startServer only logs, and the type map is
rebuilt from the filesystem on every request (findTypeForUrl calls
buildTypeMap), so each event is followed by a full rebuild across the original
ordered directory list at the next lookup. -/
def handleWatchEvent (st : SchemaCacheState) : WatchEvent → SchemaCacheState
  | .changed path => cacheInvalidateFile st path
  | .removed path => cacheInvalidateFile st path
  | .added _ => st
  | .watchError _ => st

/-- The observable outcome of the CLI startup validation. -/
inductive StartupOutcome
  | started (contractsDirCreated : Bool)
  | exitFailure (missingDir : String)
  deriving DecidableEq

/-- Embeds the directory validation of the CLI action (the program entry): a
missing contracts directory is created with mkdirSync and startup proceeds; the
external directories are then checked in order and the first missing one makes
the process exit(1).  dirOnDisk is the fs.existsSync collaborator. -/
def validateStartupDirs (dirOnDisk : String → Bool) (contractsDir : String)
    (externalDirs : List String) : StartupOutcome :=
  let created := !dirOnDisk contractsDir
  match externalDirs.find? (fun d => !dirOnDisk d) with
  | some d => .exitFailure d
  | none => .started created

/-! Catalog lemmas: buildTypeMap keeps, for every name, the file of its first
occurrence in scan order. -/

/-- Folding the buildTypeMap insertion over a list of (name, file) pairs. -/
def insertList (m : List (String × String)) (ps : List (String × String)) :
    List (String × String) :=
  ps.foldl (fun m p => insertIfNew m p.1 p.2) m

theorem lookup_singleton (k n f : String) :
    List.lookup k [(n, f)] = if k = n then some f else none := by
  by_cases h : k = n
  · simp [List.lookup, h]
  · have hb : (k == n) = false := beq_false_of_ne h
    simp [List.lookup, h, hb]

theorem lookup_insertIfNew (m : List (String × String)) (name file k : String) :
    (insertIfNew m name file).lookup k
      = (m.lookup k).or (List.lookup k [(name, file)]) := by
  unfold insertIfNew
  by_cases h : (m.lookup name).isSome = true
  · simp only [h, if_true]
    by_cases hk : k = name
    · subst hk
      obtain ⟨v, hv⟩ := Option.isSome_iff_exists.mp h
      simp [hv]
    · simp [lookup_singleton, hk]
  · simp only [h, if_false]
    exact List.lookup_append

theorem lookup_insertList (ps : List (String × String)) :
    ∀ (m : List (String × String)) (k : String),
      (insertList m ps).lookup k = (m.lookup k).or (ps.lookup k) := by
  induction ps with
  | nil => intro m k; simp [insertList]
  | cons p ps ih =>
    intro m k
    obtain ⟨n, f⟩ := p
    have hstep : insertList m ((n, f) :: ps) = insertList (insertIfNew m n f) ps := rfl
    rw [hstep, ih, lookup_insertIfNew, Option.or_assoc]
    congr 1
    by_cases hk : k = n
    · subst hk; simp [lookup_singleton, List.lookup]
    · have hb : (k == n) = false := beq_false_of_ne hk
      simp [lookup_singleton, hk, List.lookup, hb]

theorem insertList_append (m ps qs : List (String × String)) :
    insertList m (ps ++ qs) = insertList (insertList m ps) qs :=
  List.foldl_append _ _ _ _

theorem foldl_names_eq_insertList (names : List String) :
    ∀ (file : String) (m : List (String × String)),
      names.foldl (fun m n => insertIfNew m n file) m
        = insertList m (names.map fun n => (n, file)) := by
  induction names with
  | nil => intro file m; rfl
  | cons n ns ih =>
    intro file m
    show ns.foldl (fun m n => insertIfNew m n file) (insertIfNew m n file)
      = insertList (insertIfNew m n file) (ns.map fun n => (n, file))
    exact ih file (insertIfNew m n file)

theorem foldl_files_eq_insertList (fsys : FileSystem) (files : List String) :
    ∀ m : List (String × String),
      files.foldl
        (fun m file =>
          (extractInterfaceNames (fsys.fileContent file)).foldl
            (fun m interfaceName => insertIfNew m interfaceName file) m) m
        = insertList m
            (files.flatMap fun file =>
              (extractInterfaceNames (fsys.fileContent file)).map fun name =>
                (name, file)) := by
  induction files with
  | nil => intro m; rfl
  | cons file fs ih =>
    intro m
    rw [List.foldl_cons, List.flatMap_cons, insertList_append, ← ih,
      foldl_names_eq_insertList]

theorem buildTypeMap_eq_insertList (fsys : FileSystem)
    (directories : List String) :
    buildTypeMap fsys directories = insertList [] (scanPairs fsys directories) := by
  suffices h : ∀ m : List (String × String),
      directories.foldl
        (fun m dir =>
          (fsys.findTypeScriptFiles dir).foldl
            (fun m file =>
              (extractInterfaceNames (fsys.fileContent file)).foldl
                (fun m interfaceName => insertIfNew m interfaceName file) m) m) m
        = insertList m (scanPairs fsys directories) by
    exact h []
  induction directories with
  | nil => intro m; rfl
  | cons dir ds ih =>
    intro m
    rw [List.foldl_cons]
    show List.foldl _ ((fsys.findTypeScriptFiles dir).foldl _ m) ds = _
    rw [ih, foldl_files_eq_insertList]
    have : scanPairs fsys (dir :: ds)
        = ((fsys.findTypeScriptFiles dir).flatMap fun file =>
            (extractInterfaceNames (fsys.fileContent file)).map fun name =>
              (name, file)) ++ scanPairs fsys ds := by
      simp [scanPairs, List.flatMap_cons]
    rw [this, insertList_append]

theorem lookup_buildTypeMap (fsys : FileSystem) (directories : List String)
    (k : String) :
    (buildTypeMap fsys directories).lookup k
      = (scanPairs fsys directories).lookup k := by
  rw [buildTypeMap_eq_insertList, lookup_insertList]
  simp [List.lookup]

theorem scanPairs_append (fsys : FileSystem) (ds es : List String) :
    scanPairs fsys (ds ++ es) = scanPairs fsys ds ++ scanPairs fsys es := by
  simp [scanPairs, List.flatMap_append]

/-! Every interface name captured by the regex scan is non-empty, so the empty
type name can never hit the catalog. -/

theorem matchExportInterface_name_ne (cs : List Char) (n : String)
    (a : List Char) (h : matchExportInterface cs = some (n, a)) : n ≠ "" := by
  unfold matchExportInterface at h
  split at h
  · exact absurd h (by simp)
  · split at h
    · exact absurd h (by simp)
    · split at h
      · exact absurd h (by simp)
      · split at h
        · exact absurd h (by simp)
        · split at h
          · exact absurd h (by simp)
          · rename_i _ r4 _ hw
            rw [Option.some_inj] at h
            have hn : String.mk (r4.takeWhile isWordChar) = n :=
              congrArg Prod.fst h
            intro hc
            apply hw
            rw [hc] at hn
            have hdata : r4.takeWhile isWordChar = [] := by
              have := congrArg String.data hn
              simpa using this
            simp [hdata]

theorem scanInterfaceDecls_names_ne (fuel : Nat) :
    ∀ (cs : List Char) (n : String), n ∈ scanInterfaceDecls fuel cs → n ≠ "" := by
  induction fuel with
  | zero => intro cs n hn; simp [scanInterfaceDecls] at hn
  | succ fuel ih =>
    intro cs n hn
    cases cs with
    | nil => simp [scanInterfaceDecls] at hn
    | cons c rest =>
      rw [scanInterfaceDecls] at hn
      cases hm : matchExportInterface (c :: rest) with
      | none => rw [hm] at hn; exact ih rest n hn
      | some p =>
        obtain ⟨name, after⟩ := p
        rw [hm] at hn
        rcases List.mem_cons.mp hn with h | h
        · exact h ▸ matchExportInterface_name_ne _ _ _ hm
        · exact ih after n h

theorem scanPairs_keys_ne_empty (fsys : FileSystem) (directories : List String) :
    ∀ p ∈ scanPairs fsys directories, p.1 ≠ "" := by
  intro p hp
  simp only [scanPairs, List.mem_flatMap, List.mem_map] at hp
  obtain ⟨dir, _, file, _, name, hname, hpair⟩ := hp
  rw [← hpair]
  exact scanInterfaceDecls_names_ne _ _ _ hname

theorem lookup_eq_none_of_keys_ne (l : List (String × String)) (k : String)
    (h : ∀ p ∈ l, p.1 ≠ k) : l.lookup k = none := by
  induction l with
  | nil => rfl
  | cons p t ih =>
    obtain ⟨a, b⟩ := p
    have ha : a ≠ k := h (a, b) (List.mem_cons_self ..)
    have hb : (k == a) = false := beq_false_of_ne fun hk => ha hk.symm
    simp only [List.lookup, hb]
    exact ih fun q hq => h q (List.mem_cons_of_mem _ hq)

/-! Cache lemmas. -/

theorem cacheSet_enabled (c : SchemaCacheState) (n f : String) (d : MockData)
    (t : Nat) : (cacheSet c n f d t).enabled = c.enabled := by
  unfold cacheSet
  split <;> rfl

theorem cacheInvalidateFile_enabled (c : SchemaCacheState) (f : String) :
    (cacheInvalidateFile c f).enabled = c.enabled := by
  unfold cacheInvalidateFile
  split <;> rfl

theorem cacheGet_cacheSet_same (c : SchemaCacheState) (n f : String)
    (d : MockData) (t : Nat) (h : c.enabled = true) :
    cacheGet (cacheSet c n f d t) n f
      = some { interfaceName := n, filePath := f, schema := d, createdAt := t } := by
  have hfind : (c.entries.filter fun e => !cacheKeyMatches n f e).find?
      (cacheKeyMatches n f) = none := by
    rw [List.find?_eq_none]
    intro x hx
    have hx2 : cacheKeyMatches n f x = false := by
      simpa using (List.mem_filter.mp hx).2
    simp [hx2]
  have he : (cacheSet c n f d t).enabled = true := by rw [cacheSet_enabled, h]
  have hentries : (cacheSet c n f d t).entries
      = c.entries.filter (fun e => !cacheKeyMatches n f e) ++
        [{ interfaceName := n, filePath := f, schema := d, createdAt := t }] := by
    unfold cacheSet
    rw [if_pos h]
  unfold cacheGet
  rw [if_pos he, hentries, List.find?_append, hfind]
  simp [List.find?, cacheKeyMatches]

theorem cacheGet_cacheInvalidateFile (c : SchemaCacheState) (n f : String) :
    cacheGet (cacheInvalidateFile c f) n f = none := by
  unfold cacheGet cacheInvalidateFile
  by_cases h : c.enabled = true
  · simp only [h, if_true]
    rw [List.find?_eq_none]
    intro x hx
    have hx2 : (x.filePath == f) = false := by
      simpa using (List.mem_filter.mp hx).2
    simp [cacheKeyMatches, hx2]
  · simp [h]

/-! The claims. -/

/-- C1: building the type map from the ordered directories [A, B] where both
define a type T yields the file for T found under A, and building from [B, A]
yields the one found under B; in general the map binds every name to the file
of its first occurrence in scan order, discarding later occurrences and never
merging. -/
theorem buildTypeMap_first_wins (fsys : FileSystem)
    (dirA dirB typeT fileA fileB : String)
    (hA : (scanPairs fsys [dirA]).lookup typeT = some fileA)
    (hB : (scanPairs fsys [dirB]).lookup typeT = some fileB) :
    (buildTypeMap fsys [dirA, dirB]).lookup typeT = some fileA ∧
    (buildTypeMap fsys [dirB, dirA]).lookup typeT = some fileB ∧
    ∀ (directories : List String) (name : String),
      (buildTypeMap fsys directories).lookup name
        = (scanPairs fsys directories).lookup name := by
  refine ⟨?_, ?_, fun directories name => lookup_buildTypeMap fsys directories name⟩
  · rw [lookup_buildTypeMap,
      show ([dirA, dirB] : List String) = [dirA] ++ [dirB] from rfl,
      scanPairs_append, List.lookup_append, hA]
    rfl
  · rw [lookup_buildTypeMap,
      show ([dirB, dirA] : List String) = [dirB] ++ [dirA] from rfl,
      scanPairs_append, List.lookup_append, hB]
    rfl

/-- A two-directory filesystem in which both directories define a type T. -/
def twoDirFileSystem : FileSystem where
  findTypeScriptFiles dir :=
    if dir = "dirA" then ["dirA/t.ts"]
    else if dir = "dirB" then ["dirB/t.ts"]
    else []
  fileContent file :=
    if file = "dirA/t.ts" then "export interface T x"
    else if file = "dirB/t.ts" then "export interface T y"
    else ""

theorem buildTypeMap_first_wins_witness :
    (buildTypeMap twoDirFileSystem ["dirA", "dirB"]).lookup "T"
        = some "dirA/t.ts" ∧
    (buildTypeMap twoDirFileSystem ["dirB", "dirA"]).lookup "T"
        = some "dirB/t.ts" := by
  have h := buildTypeMap_first_wins twoDirFileSystem "dirA" "dirB" "T"
    "dirA/t.ts" "dirB/t.ts" (by decide) (by decide)
  exact ⟨h.1, h.2.1⟩

/-- C8: the root URL and the empty URL resolve to the empty type name, and that
name deterministically misses the catalog (findTypeForUrl yields none, a total
function) whatever the state of the scanned directories. -/
theorem empty_url_lookup_misses (fsys : FileSystem) (directories : List String) :
    (parseUrlToType "/").typeName = "" ∧
    (parseUrlToType "").typeName = "" ∧
    findTypeForUrl fsys "/" directories = none ∧
    findTypeForUrl fsys "" directories = none := by
  have hmap : (buildTypeMap fsys directories).lookup "" = none := by
    rw [lookup_buildTypeMap]
    exact lookup_eq_none_of_keys_ne _ _ (scanPairs_keys_ne_empty fsys directories)
  refine ⟨by decide, by decide, ?_, ?_⟩
  · simp only [findTypeForUrl,
      show (parseUrlToType "/").typeName = "" from by decide, hmap]
  · simp only [findTypeForUrl,
      show (parseUrlToType "").typeName = "" from by decide, hmap]

/-- C4: a Changed or Removed event for a path removes exactly the cache entries
whose source file is that path, an Added event performs no invalidation, and a
watcher Error leaves the cache untouched; the type catalog is rebuilt from the
filesystem across the original ordered directory list at every request
(findTypeForUrl invokes buildTypeMap), so after any event the previous catalog
is no longer consulted. -/
theorem watch_event_cache_effects (st : SchemaCacheState) (p d : String)
    (e : CachedSchema) (hen : st.enabled = true) :
    (e ∈ (handleWatchEvent st (.changed p)).entries ↔
      e ∈ st.entries ∧ e.filePath ≠ p) ∧
    (e ∈ (handleWatchEvent st (.removed p)).entries ↔
      e ∈ st.entries ∧ e.filePath ≠ p) ∧
    handleWatchEvent st (.added p) = st ∧
    handleWatchEvent st (.watchError d) = st := by
  refine ⟨?_, ?_, rfl, rfl⟩
  all_goals
    simp [handleWatchEvent, cacheInvalidateFile, hen, List.mem_filter]

theorem watch_event_cache_effects_witness :
    (⟨"User", "a.ts", "data", 0⟩ : CachedSchema) ∈
      (handleWatchEvent
        { enabled := true, entries := [⟨"User", "a.ts", "data", 0⟩] }
        (.changed "b.ts")).entries :=
  ((watch_event_cache_effects
    { enabled := true, entries := [⟨"User", "a.ts", "data", 0⟩] }
    "b.ts" "detail" ⟨"User", "a.ts", "data", 0⟩ rfl).1).mpr (by decide)

/-- C3: with an upstream target configured, a request whose URL resolves to a
known type is served on the mock path and a request resolving to no type is
forwarded to the upstream; with no upstream configured, every request takes the
mock path. -/
theorem gate_decision_policy (config : ServerConfig) (fsys : FileSystem)
    (url : String) :
    (config.targetUrl = none → gateDecision config fsys url = .serveMockRoute) ∧
    (∀ t : String, config.targetUrl = some t →
      ((∃ m, findTypeForUrl fsys url (allDirs config) = some m) →
        gateDecision config fsys url = .serveMockRoute) ∧
      (findTypeForUrl fsys url (allDirs config) = none →
        gateDecision config fsys url = .forwardToUpstream)) := by
  refine ⟨fun h => by simp [gateDecision, h], fun t ht => ⟨?_, fun hm => ?_⟩⟩
  · rintro ⟨m, hm⟩
    simp [gateDecision, ht, hm]
  · simp [gateDecision, ht, hm]

/-- A configuration with an upstream target over the two-directory
filesystem. -/
def gateConfig : ServerConfig :=
  { contractsDir := "dirA", externalDirs := ["dirB"],
    targetUrl := some "http://backend", cache := true }

theorem gate_decision_policy_witness :
    gateDecision gateConfig twoDirFileSystem "/api/ts" = .serveMockRoute ∧
    gateDecision gateConfig twoDirFileSystem "/api/users" = .forwardToUpstream := by
  have h1 := (gate_decision_policy gateConfig twoDirFileSystem "/api/ts").2
    "http://backend" rfl
  have h2 := (gate_decision_policy gateConfig twoDirFileSystem "/api/users").2
    "http://backend" rfl
  exact ⟨h1.1 ⟨⟨"T", true, "dirA/t.ts"⟩, by decide⟩, h2.2 (by decide)⟩

/-! Serving lemmas: the behavior of serveResolved on cache hits, misses,
array routes and disabled caching. -/

theorem serveResolved_hit (gen : MockGenerator) (config : ServerConfig)
    (st : SchemaCacheState) (now : Nat) (m : RouteTypeMapping)
    (forced : Option Nat) (c : CachedSchema)
    (huse : (config.cache && m.filePath != "" && !m.isArray) = true)
    (hget : cacheGet st m.typeName m.filePath = some c) :
    serveResolved gen config st now m forced
      = ({ status := statusOr forced 200, body := .payload c.schema }, st) := by
  unfold serveResolved
  rw [huse]
  simp [hget]

theorem serveResolved_miss (gen : MockGenerator) (config : ServerConfig)
    (st : SchemaCacheState) (now : Nat) (m : RouteTypeMapping)
    (forced : Option Nat)
    (huse : (config.cache && m.filePath != "" && !m.isArray) = true)
    (hget : cacheGet st m.typeName m.filePath = none)
    (hsing : m.isArray = false) :
    serveResolved gen config st now m forced
      = ({ status := statusOr forced 200,
           body := .payload
             (gen.generateMockFromInterface m.filePath m.typeName) },
         cacheSet st m.typeName m.filePath
           (gen.generateMockFromInterface m.filePath m.typeName) now) := by
  unfold serveResolved
  rw [huse]
  simp [hget, hsing]

theorem serveResolved_nocache (gen : MockGenerator) (config : ServerConfig)
    (st : SchemaCacheState) (now : Nat) (m : RouteTypeMapping)
    (forced : Option Nat)
    (huse : (config.cache && m.filePath != "" && !m.isArray) = false)
    (hsing : m.isArray = false) :
    serveResolved gen config st now m forced
      = ({ status := statusOr forced 200,
           body := .payload
             (gen.generateMockFromInterface m.filePath m.typeName) }, st) := by
  unfold serveResolved
  rw [huse]
  simp [hsing]

theorem serveResolved_array (gen : MockGenerator) (config : ServerConfig)
    (st : SchemaCacheState) (now : Nat) (m : RouteTypeMapping)
    (forced : Option Nat) (ha : m.isArray = true) :
    serveResolved gen config st now m forced
      = ({ status := statusOr forced 200,
           body := .arrayPayload
             (gen.generateMockArray m.filePath m.typeName) }, st) := by
  unfold serveResolved
  have hu : (config.cache && m.filePath != "" && !m.isArray) = false := by
    rw [ha]
    simp
  rw [hu]
  simp [ha]

theorem serveResolved_forced_shape (gen : MockGenerator) (config : ServerConfig)
    (st : SchemaCacheState) (now : Nat) (m : RouteTypeMapping)
    (forced : Option Nat) :
    (serveResolved gen config st now m forced).1.status = statusOr forced 200 ∧
    (serveResolved gen config st now m forced).1.body
      = (serveResolved gen config st now m none).1.body ∧
    (serveResolved gen config st now m forced).2
      = (serveResolved gen config st now m none).2 := by
  unfold serveResolved
  cases hc : (if config.cache && m.filePath != "" && !m.isArray then
      cacheGet st m.typeName m.filePath else none) with
  | some cached => simp
  | none =>
    by_cases ha : m.isArray = true
    · simp [ha]
    · simp [ha]

/-- C2: URL resolution takes the last non-empty slash-delimited segment,
singularizes it only when it is plural (with irregular forms) and PascalCases
it on hyphen and underscore boundaries, per the four canonical examples; a
segment already in singular form is never marked as an array. -/
theorem url_resolution_examples :
    parseUrlToType "/api/v1/users" = ⟨"User", true⟩ ∧
    parseUrlToType "/api/user" = ⟨"User", false⟩ ∧
    parseUrlToType "/api/people" = ⟨"Person", true⟩ ∧
    parseUrlToType "/api/user-profiles" = ⟨"UserProfile", true⟩ ∧
    ∀ segment : String, isPlural segment = false →
      (urlSegmentToTypeName segment).isArray = false := by
  refine ⟨by decide, by decide, by decide, by decide, fun segment h => ?_⟩
  simp [urlSegmentToTypeName, h]

theorem url_resolution_examples_witness :
    (urlSegmentToTypeName "user").isArray = false :=
  url_resolution_examples.2.2.2.2 "user" (by decide)

/-- C9: when every configured external directory exists, startup proceeds and
the contracts directory is auto-created exactly when it was missing; when some
configured external directory is missing, startup is fatal (the process
exits). -/
theorem startup_directory_policy (dirOnDisk : String → Bool)
    (contractsDir : String) (externalDirs : List String) :
    ((∀ d ∈ externalDirs, dirOnDisk d = true) →
      validateStartupDirs dirOnDisk contractsDir externalDirs
        = .started (!dirOnDisk contractsDir)) ∧
    (∀ d ∈ externalDirs, dirOnDisk d = false →
      ∃ d', validateStartupDirs dirOnDisk contractsDir externalDirs
        = .exitFailure d') := by
  constructor
  · intro h
    have hf : externalDirs.find? (fun d => !dirOnDisk d) = none := by
      rw [List.find?_eq_none]
      intro x hx
      simp [h x hx]
    unfold validateStartupDirs
    rw [hf]
  · intro d hd hmiss
    unfold validateStartupDirs
    cases hf : externalDirs.find? (fun d => !dirOnDisk d) with
    | some d' => exact ⟨d', rfl⟩
    | none =>
      exfalso
      have := List.find?_eq_none.mp hf d hd
      simp [hmiss] at this

theorem startup_directory_policy_witness :
    validateStartupDirs (fun d => d == "ext1") "contracts" ["ext1"]
        = .started true ∧
    ∃ d', validateStartupDirs (fun _ => false) "contracts" ["ext1"]
        = .exitFailure d' :=
  ⟨(startup_directory_policy (fun d => d == "ext1") "contracts" ["ext1"]).1
      (by decide),
   (startup_directory_policy (fun _ => false) "contracts" ["ext1"]).2
      "ext1" (by decide) rfl⟩

/-- A configuration with no upstream target over the two-directory
filesystem, caching enabled. -/
def mockConfig : ServerConfig :=
  { contractsDir := "dirA", externalDirs := ["dirB"],
    targetUrl := none, cache := true }

/-- An enabled empty cache, the state of the fresh schemaCache singleton. -/
def emptyCache : SchemaCacheState := { enabled := true, entries := [] }

/-- A generator environment producing payloads tagged A. -/
def genA : MockGenerator where
  generateMockFromInterface _ name := "A:" ++ name
  generateMockArray _ name := ["A:" ++ name]

/-- A generator environment producing payloads tagged B. -/
def genB : MockGenerator where
  generateMockFromInterface _ name := "B:" ++ name
  generateMockArray _ name := ["B:" ++ name]

/-- C10: an x-mock-status header is honored exactly when it parses (as the JS
parseInt does) to a status in the range 100 to 599; a forced status of 400 or
more makes the handler answer that status with a fixed error body, touching
neither the generator nor the cache; a forced status below 400 is applied to
the normally produced mock payload. -/
theorem status_override_behavior :
    (∀ (h : String) (s : Nat),
      statusOverrideMiddleware (some h) = some s ↔
        jsParseInt h = some (s : Int) ∧ 100 ≤ s ∧ s ≤ 599) ∧
    (∀ (gen gen' : MockGenerator) (config : ServerConfig) (fsys : FileSystem)
        (st : SchemaCacheState) (now : Nat) (url : String) (f : Nat),
      400 ≤ f →
      (dynamicRouteHandler gen config fsys st now url (some f)).1.status = f ∧
      ((dynamicRouteHandler gen config fsys st now url (some f)).1.body
          = .forcedError f ∨
        (dynamicRouteHandler gen config fsys st now url (some f)).1.body
          = .typeNotFound url) ∧
      (dynamicRouteHandler gen config fsys st now url (some f)).2 = st ∧
      dynamicRouteHandler gen config fsys st now url (some f)
        = dynamicRouteHandler gen' config fsys st now url (some f)) ∧
    (∀ (gen : MockGenerator) (config : ServerConfig) (fsys : FileSystem)
        (st : SchemaCacheState) (now : Nat) (url : String) (f : Nat)
        (m : RouteTypeMapping),
      100 ≤ f → f < 400 →
      findTypeForUrl fsys url (allDirs config) = some m →
      (dynamicRouteHandler gen config fsys st now url (some f)).1.status = f ∧
      (dynamicRouteHandler gen config fsys st now url (some f)).1.body
        = (dynamicRouteHandler gen config fsys st now url none).1.body) := by
  refine ⟨?_, ?_, ?_⟩
  · intro h s
    constructor
    · intro hs
      simp only [statusOverrideMiddleware] at hs
      split at hs
      · exact absurd hs (by simp)
      · split at hs
        · exact absurd hs (by simp)
        · rename_i i hp
          split at hs
          · rename_i hr
            rw [Option.some_inj] at hs
            subst hs
            obtain ⟨hr1, hr2⟩ := hr
            refine ⟨?_, by omega, by omega⟩
            rw [hp]
            congr 1
            omega
          · exact absurd hs (by simp)
    · rintro ⟨hp, h1, h2⟩
      simp only [statusOverrideMiddleware]
      have hemp : h ≠ "" := by
        intro hc
        rw [hc, show jsParseInt "" = none from rfl] at hp
        exact Option.noConfusion hp
      rw [if_neg hemp, hp]
      show (if 100 ≤ (s : Int) ∧ (s : Int) < 600 then some (s : Int).toNat
        else none) = some s
      rw [if_pos (by constructor <;> omega)]
      simp
  · intro gen gen' config fsys st now url f hf
    have hne : (f == 0) = false := by
      have h0 : f ≠ 0 := by omega
      simpa using h0
    cases hm : findTypeForUrl fsys url (allDirs config) with
    | none =>
      have hval : ∀ g : MockGenerator,
          dynamicRouteHandler g config fsys st now url (some f)
            = ({ status := f, body := .typeNotFound url }, st) := by
        intro g
        simp only [dynamicRouteHandler, hm]
        simp [statusOr, hne]
      rw [hval gen, hval gen']
      exact ⟨rfl, Or.inr rfl, rfl, rfl⟩
    | some mapping =>
      have hval : ∀ g : MockGenerator,
          dynamicRouteHandler g config fsys st now url (some f)
            = ({ status := f, body := .forcedError f }, st) := by
        intro g
        simp only [dynamicRouteHandler, hm]
        simp [hf]
      rw [hval gen, hval gen']
      exact ⟨rfl, Or.inl rfl, rfl, rfl⟩
  · intro gen config fsys st now url f m h100 h400 hm
    have hne : (f == 0) = false := by
      have h0 : f ≠ 0 := by omega
      simpa using h0
    have hlt : ¬ 400 ≤ f := by omega
    have h1 : dynamicRouteHandler gen config fsys st now url (some f)
        = serveResolved gen config st now m (some f) := by
      simp only [dynamicRouteHandler, hm, if_neg hlt]
    have h2 : dynamicRouteHandler gen config fsys st now url none
        = serveResolved gen config st now m none := by
      simp only [dynamicRouteHandler, hm]
    rw [h1, h2]
    have hsf := serveResolved_forced_shape gen config st now m (some f)
    refine ⟨?_, hsf.2.1⟩
    rw [hsf.1]
    simp [statusOr, hne]

theorem status_override_behavior_witness :
    statusOverrideMiddleware (some "404") = some 404 ∧
    (dynamicRouteHandler genA mockConfig twoDirFileSystem emptyCache 0
        "/api/ts" (some 500)).1.status = 500 ∧
    (dynamicRouteHandler genA mockConfig twoDirFileSystem emptyCache 0
        "/api/ts" (some 201)).1.status = 201 :=
  ⟨(status_override_behavior.1 "404" 404).mpr ⟨by decide, by decide, by decide⟩,
   (status_override_behavior.2.1 genA genA mockConfig twoDirFileSystem
      emptyCache 0 "/api/ts" 500 (by decide)).1,
   (status_override_behavior.2.2 genA mockConfig twoDirFileSystem
      emptyCache 0 "/api/ts" 201 ⟨"T", true, "dirA/t.ts"⟩ (by decide)
      (by decide) (by decide)).1⟩

/-- C5: with the cache enabled, two consecutive mock requests for the same
singular route return byte-identical payloads (the second is served the stored
payload of the first); with the cache disabled, or after a Changed invalidation
of the route's source file between the two requests, the second payload is
exactly a fresh output of the second request's generator, independent of the
first request. -/
theorem singular_cache_determinism (gen1 gen2 : MockGenerator)
    (config : ServerConfig) (fsys : FileSystem) (st : SchemaCacheState)
    (now1 now2 : Nat) (url : String) (m : RouteTypeMapping)
    (hres : findTypeForUrl fsys url (allDirs config) = some m)
    (hsing : m.isArray = false) (hfile : m.filePath ≠ "")
    (hen : st.enabled = true) :
    (config.cache = true →
      (dynamicRouteHandler gen2 config fsys
          (dynamicRouteHandler gen1 config fsys st now1 url none).2 now2 url
          none).1.body
        = (dynamicRouteHandler gen1 config fsys st now1 url none).1.body) ∧
    (config.cache = false →
      (dynamicRouteHandler gen2 config fsys
          (dynamicRouteHandler gen1 config fsys st now1 url none).2 now2 url
          none).1.body
        = .payload (gen2.generateMockFromInterface m.filePath m.typeName)) ∧
    (config.cache = true →
      (dynamicRouteHandler gen2 config fsys
          (handleWatchEvent
            (dynamicRouteHandler gen1 config fsys st now1 url none).2
            (.changed m.filePath)) now2 url none).1.body
        = .payload (gen2.generateMockFromInterface m.filePath m.typeName)) := by
  have hred : ∀ (g : MockGenerator) (s : SchemaCacheState) (t : Nat),
      dynamicRouteHandler g config fsys s t url none
        = serveResolved g config s t m none := by
    intro g s t
    simp only [dynamicRouteHandler, hres]
  have hbne : (m.filePath != "") = true := bne_iff_ne.mpr hfile
  refine ⟨?_, ?_, ?_⟩
  · intro hc
    have huse : (config.cache && m.filePath != "" && !m.isArray) = true := by
      rw [hc, hbne, hsing]
      rfl
    cases hget : cacheGet st m.typeName m.filePath with
    | some c =>
      simp only [hred gen1 st now1, hred gen2,
        serveResolved_hit gen1 config st now1 m none c huse hget]
      rw [serveResolved_hit gen2 config st now2 m none c huse hget]
    | none =>
      simp only [hred gen1 st now1, hred gen2,
        serveResolved_miss gen1 config st now1 m none huse hget hsing]
      rw [serveResolved_hit gen2 config _ now2 m none _ huse
        (cacheGet_cacheSet_same st m.typeName m.filePath
          (gen1.generateMockFromInterface m.filePath m.typeName) now1 hen)]
  · intro hc
    have huse : (config.cache && m.filePath != "" && !m.isArray) = false := by
      rw [hc]
      rfl
    simp only [hred gen1 st now1, hred gen2,
      serveResolved_nocache gen1 config st now1 m none huse hsing]
    rw [serveResolved_nocache gen2 config st now2 m none huse hsing]
  · intro hc
    have huse : (config.cache && m.filePath != "" && !m.isArray) = true := by
      rw [hc, hbne, hsing]
      rfl
    simp only [hred gen1 st now1, hred gen2, handleWatchEvent]
    rw [serveResolved_miss gen2 config _ now2 m none huse
      (cacheGet_cacheInvalidateFile _ m.typeName m.filePath) hsing]

theorem singular_cache_determinism_witness :
    (dynamicRouteHandler genB mockConfig twoDirFileSystem
        (dynamicRouteHandler genA mockConfig twoDirFileSystem emptyCache 0
          "/api/t" none).2 1 "/api/t" none).1.body
      = (dynamicRouteHandler genA mockConfig twoDirFileSystem emptyCache 0
          "/api/t" none).1.body :=
  (singular_cache_determinism genA genB mockConfig twoDirFileSystem emptyCache
    0 1 "/api/t" ⟨"T", false, "dirA/t.ts"⟩ (by decide) rfl (by decide) rfl).1 rfl

theorem serveResolved_state (gen : MockGenerator) (config : ServerConfig)
    (st : SchemaCacheState) (now : Nat) (m : RouteTypeMapping)
    (forced : Option Nat) :
    (serveResolved gen config st now m forced).2 = st ∨
      (m.isArray = false ∧ cacheGet st m.typeName m.filePath = none ∧
        (serveResolved gen config st now m forced).2
          = cacheSet st m.typeName m.filePath
              (gen.generateMockFromInterface m.filePath m.typeName) now) := by
  by_cases ha : m.isArray = true
  · left
    rw [serveResolved_array gen config st now m forced ha]
  · have hsing : m.isArray = false := by simpa using ha
    by_cases hu : (config.cache && m.filePath != "" && !m.isArray) = true
    · cases hget : cacheGet st m.typeName m.filePath with
      | some c =>
        left
        rw [serveResolved_hit gen config st now m forced c hu hget]
      | none =>
        right
        refine ⟨hsing, rfl, ?_⟩
        rw [serveResolved_miss gen config st now m forced hu hget hsing]
    · left
      have hu' : (config.cache && m.filePath != "" && !m.isArray) = false := by
        simpa using hu
      rw [serveResolved_nocache gen config st now m forced hu' hsing]

/-- C6: a cache entry is created only on a cache miss for a singular resolved
route — every request either leaves the cache unchanged or stores exactly the
freshly generated entry for the resolved singular route that missed; a request
for an array route never changes the cache and its response is independent of
the cache contents (array responses are never read from the cache). -/
theorem cache_entry_creation_invariant (gen : MockGenerator)
    (config : ServerConfig) (fsys : FileSystem) (st st' : SchemaCacheState)
    (now : Nat) (url : String) (forced : Option Nat) :
    ((dynamicRouteHandler gen config fsys st now url forced).2 = st ∨
      ∃ m, findTypeForUrl fsys url (allDirs config) = some m ∧
        m.isArray = false ∧
        cacheGet st m.typeName m.filePath = none ∧
        (dynamicRouteHandler gen config fsys st now url forced).2
          = cacheSet st m.typeName m.filePath
              (gen.generateMockFromInterface m.filePath m.typeName) now) ∧
    (∀ m, findTypeForUrl fsys url (allDirs config) = some m →
      m.isArray = true →
      (dynamicRouteHandler gen config fsys st now url forced).2 = st ∧
      (dynamicRouteHandler gen config fsys st now url forced).1
        = (dynamicRouteHandler gen config fsys st' now url forced).1) := by
  constructor
  · cases hm : findTypeForUrl fsys url (allDirs config) with
    | none =>
      left
      simp only [dynamicRouteHandler, hm]
    | some m =>
      cases forced with
      | none =>
        have h1 : dynamicRouteHandler gen config fsys st now url none
            = serveResolved gen config st now m none := by
          simp only [dynamicRouteHandler, hm]
        rw [h1]
        rcases serveResolved_state gen config st now m none with h | ⟨ha, hg, hset⟩
        · exact Or.inl h
        · exact Or.inr ⟨m, rfl, ha, hg, hset⟩
      | some f =>
        by_cases hf : 400 ≤ f
        · left
          simp only [dynamicRouteHandler, hm, if_pos hf]
        · have h1 : dynamicRouteHandler gen config fsys st now url (some f)
              = serveResolved gen config st now m (some f) := by
            simp only [dynamicRouteHandler, hm, if_neg hf]
          rw [h1]
          rcases serveResolved_state gen config st now m (some f) with
            h | ⟨ha, hg, hset⟩
          · exact Or.inl h
          · exact Or.inr ⟨m, rfl, ha, hg, hset⟩
  · intro m hm ha
    cases forced with
    | none =>
      have h1 : ∀ s : SchemaCacheState,
          dynamicRouteHandler gen config fsys s now url none
            = serveResolved gen config s now m none := by
        intro s
        simp only [dynamicRouteHandler, hm]
      rw [h1 st, h1 st', serveResolved_array gen config st now m none ha,
        serveResolved_array gen config st' now m none ha]
      exact ⟨rfl, rfl⟩
    | some f =>
      by_cases hf : 400 ≤ f
      · have h1 : ∀ s : SchemaCacheState,
            dynamicRouteHandler gen config fsys s now url (some f)
              = ({ status := f, body := .forcedError f }, s) := by
          intro s
          simp only [dynamicRouteHandler, hm, if_pos hf]
        rw [h1 st, h1 st']
        exact ⟨rfl, rfl⟩
      · have h1 : ∀ s : SchemaCacheState,
            dynamicRouteHandler gen config fsys s now url (some f)
              = serveResolved gen config s now m (some f) := by
          intro s
          simp only [dynamicRouteHandler, hm, if_neg hf]
        rw [h1 st, h1 st', serveResolved_array gen config st now m (some f) ha,
          serveResolved_array gen config st' now m (some f) ha]
        exact ⟨rfl, rfl⟩

/-- A cache primed with a stale entry for the type of the example route. -/
def primedCache : SchemaCacheState :=
  { enabled := true, entries := [⟨"T", "dirA/t.ts", "stale", 0⟩] }

theorem cache_entry_creation_invariant_witness :
    (dynamicRouteHandler genA mockConfig twoDirFileSystem emptyCache 0
        "/api/ts" none).2 = emptyCache ∧
    (dynamicRouteHandler genA mockConfig twoDirFileSystem emptyCache 0
        "/api/ts" none).1
      = (dynamicRouteHandler genA mockConfig twoDirFileSystem primedCache 0
          "/api/ts" none).1 :=
  (cache_entry_creation_invariant genA mockConfig twoDirFileSystem emptyCache
    primedCache 0 "/api/ts" none).2 ⟨"T", true, "dirA/t.ts"⟩ (by decide) rfl

/-- C7 (code defect): forwarding is single-attempt with no retry and no mock
fallback, but on a failed upstream attempt the caller receives no reply at all
from the onError handler — in particular not the 502 Proxy Error the handler
was written to send — because the guard (res instanceof Response) tests the
response object against the type-only express Response export, which has no
runtime value, so the guard can never hold. -/
theorem proxy_upstream_failure_no_reply :
    forwardRequest false "connect ECONNREFUSED" = .failedAttempt none ∧
    (∀ message : String,
      forwardRequest false message = .failedAttempt none ∧
      forwardRequest true message = .upstreamReply) :=
  ⟨rfl, fun _ => ⟨rfl, rfl⟩⟩

end TSMockProxy
